import Mathlib

/-!
Shallow embedding of the Hay Day XP optimizer core (`app/app.py`):
the catalogue data model, the recipe-closure analysis, the MILP model
builder (`optimize_plan_notebook`, model-construction half) and the
result extractor (post-solve half).  Python floats are modelled as
rationals; the external CBC solver is modelled as an abstract pair of
a status string and a variable assignment `String → ℚ`.  A Python
exception during a phase is modelled as `Except.error` / `none` for
that phase.  The unbounded recursion of `closure_ok` is modelled with
an explicit fuel argument (`closureOkF`); the fuel `avail.length + 1`
used by `closureOkB` is enough for every acyclic ingredient graph,
and exhaustion of fuel (= Python blowing the recursion stack) is the
`none` outcome.

The `Rat` arithmetic of Batteries is `@[irreducible]`, which blocks
`decide`/`rfl` evaluation of the embedding at concrete catalogues; the
attribute line below restores the definitional unfolding (the kernel
ignores reducibility attributes, so nothing about soundness changes).
-/

set_option allowUnsafeReducibility true
attribute [local semireducible] Rat.mul Rat.add Rat.sub Rat.inv Rat.div

/-- Python `\s` whitespace class (the characters `re.sub(r"\s+", " ", s)`
collapses). -/
def pyIsSpace (c : Char) : Bool :=
  c == ' ' || c == '\t' || c == '\n' || c == '\r' || c == '\x0b' || c == '\x0c'

/-- Collapse every run of whitespace characters to a single space,
as `re.sub(r"\s+", " ", s)` does. -/
def collapseWS : List Char → List Char
  | [] => []
  | [c] => [if pyIsSpace c then ' ' else c]
  | c :: d :: t =>
    if pyIsSpace c && pyIsSpace d then collapseWS (d :: t)
    else (if pyIsSpace c then ' ' else c) :: collapseWS (d :: t)

/-- `norm` from `app.py`: replace NBSP by space and en/em dashes by `-`,
collapse whitespace runs, strip, lowercase. -/
def normStr (s : String) : String :=
  let cs := s.toList.map fun c =>
    if c == ' ' then ' ' else if c == '–' || c == '—' then '-' else c
  let cs := collapseWS cs
  let cs := (cs.dropWhile pyIsSpace).reverse.dropWhile pyIsSpace |>.reverse
  String.mk (cs.map Char.toLower)

/-- Does the character list `s` start with `p`? -/
def charsStartWith : List Char → List Char → Bool
  | _, [] => true
  | [], _ :: _ => false
  | c :: s, d :: p => c == d && charsStartWith s p

/-- Does the character list `s` contain `p` as a contiguous run? -/
def charsContain : List Char → List Char → Bool
  | [], p => p.isEmpty
  | c :: s, p => charsStartWith (c :: s) p || charsContain s p

/-- Case-insensitive substring test: `re.search(pat, s, re.I)` for a
literal pattern `pat` (given lowercase). -/
def containsCI (pat s : String) : Bool :=
  charsContain (s.toList.map Char.toLower) (pat.toList)

/-- `re.search(r"Field|Tree|Bush", source, re.I)` from the initial-stock
setup of `optimize_plan_notebook`. -/
def sourceMatches (source : String) : Bool :=
  containsCI "field" source || containsCI "tree" source || containsCI "bush" source

/-- Replace every run of non-alphanumeric characters by `_`,
as `re.sub(r"[^A-Za-z0-9]+", "_", s)` does. -/
def sanitizeChars : List Char → List Char
  | [] => []
  | [c] => [if c.isAlphanum then c else '_']
  | c :: d :: t =>
    if !c.isAlphanum && !d.isAlphanum then sanitizeChars (d :: t)
    else (if c.isAlphanum then c else '_') :: sanitizeChars (d :: t)

/-- The `v` helper of `optimize_plan_notebook`: sanitized variable /
constraint names. -/
def vName (p s : String) : String := p ++ String.mk (sanitizeChars s.toList)

/-- Python `round` (banker's rounding, ties to the even integer),
followed by `int(...)`.  Written on the reduced `num`/`den` pair:
`f = ⌊q⌋` and the fractional part `r/den` is compared with `1/2` by
cross-multiplication. -/
def pyRound (q : ℚ) : ℤ :=
  let d : ℤ := (q.den : ℤ)
  let f : ℤ := q.num.fdiv d
  let r : ℤ := q.num - f * d
  if 2 * r < d then f
  else if d < 2 * r then f + 1
  else if f % 2 = 0 then f else f + 1

/-- The solver noise tolerance `1e-6` used by the extractor. -/
def tol : ℚ := 1 / 1000000

/-- One row of the cleaned catalogue dataframe `df_cleaned`. -/
structure Item where
  name_norm : String
  Name : String
  Level_num : Int
  XP : ℚ
  time_min : ℚ
  needs_norm : List (String × ℚ)
  Yield_qty : ℚ
  Building : String
  Production_Type : String
  Source : String
deriving DecidableEq, Repr

/-- `avail = df_cleaned[df_cleaned["Level_num"] <= player_level]`. -/
def availOf (df : List Item) (player_level : Int) : List Item :=
  df.filter fun r => r.Level_num ≤ player_level

/-- `items_set = set(avail["name_norm"])`, as a duplicate-free list. -/
def itemsOf (avail : List Item) : List String :=
  (avail.map fun r => r.name_norm).dedup

/-- The row a Python dict comprehension over `avail` associates with key
`k` (the last matching row wins). -/
def rowFor (avail : List Item) (k : String) : Option Item :=
  (avail.filter fun r => r.name_norm == k).getLast?

/-- `xp[i]` map. -/
def xpGet (avail : List Item) (k : String) : ℚ :=
  ((rowFor avail k).map fun r => r.XP).getD 0

/-- `tmin[i]` map. -/
def tminGet (avail : List Item) (k : String) : ℚ :=
  ((rowFor avail k).map fun r => r.time_min).getD 0

/-- `needs_map.get(u, {})`. -/
def needsGet (avail : List Item) (k : String) : List (String × ℚ) :=
  ((rowFor avail k).map fun r => r.needs_norm).getD []

/-- `needs_map[i].get(k, 0.0)`. -/
def needsCoeff (avail : List Item) (i k : String) : ℚ :=
  ((needsGet avail i).lookup k).getD 0

/-- `yield_map.get(k, 1.0)`. -/
def yieldGet (avail : List Item) (k : String) : ℚ :=
  ((rowFor avail k).map fun r => r.Yield_qty).getD 1

/-- `type_map.get(k, "Unknown")`. -/
def typeGet (avail : List Item) (k : String) : String :=
  ((rowFor avail k).map fun r => r.Production_Type).getD "Unknown"

/-- `avail[avail["name_norm"] == i]["Building"].iloc[0]` (first matching
row), used when grouping the machine-capacity constraints. -/
def firstBuilding (avail : List Item) (k : String) : String :=
  ((avail.find? fun r => r.name_norm == k).map fun r => r.Building).getD ""

/-- `df_cleaned[df_cleaned["name_norm"] == i]["Name"].iloc[0]`. -/
def displayName (df : List Item) (k : String) : String :=
  ((df.find? fun r => r.name_norm == k).map fun r => r.Name).getD ""

/-- `initial_stock_map.get(k, 0.0)`: `30.0` exactly when some `avail` row
named `k` has a Field/Tree/Bush source, else `0.0`. -/
def initialStock (avail : List Item) (k : String) : ℚ :=
  if avail.any (fun r => r.name_norm == k && sourceMatches r.Source) then 30 else 0

/-- `ingredient_items`: the keys of any `needs_map` entry that are
themselves unlocked items. -/
def ingredientItemsOf (avail : List Item) : List String :=
  (((itemsOf avail).flatMap fun i => (needsGet avail i).map Prod.fst).filter
    fun k => (itemsOf avail).contains k).dedup

/-- `closure_ok` from `optimize_plan_notebook`, with explicit fuel for
the unbounded recursion: `none` means the Python call stack keeps
growing (no answer is ever produced within that stack budget).  The
body mirrors the Python loop: a missing ingredient gives `False`
immediately, otherwise recurse into the ingredient. -/
def closureOkF (needs : String → List (String × ℚ)) (items : List String) :
    Nat → String → Option Bool
  | 0, _ => none
  | fuel + 1, u =>
    (needs u).foldl
      (fun acc p =>
        match acc with
        | none => none
        | some false => some false
        | some true =>
          if items.contains p.1 then closureOkF needs items fuel p.1
          else some false)
      (some true)

/-- `closure_ok` with the canonical fuel: `avail.length + 1` bounds the
recursion depth of every acyclic ingredient graph over `avail`. -/
def closureOkB (avail : List Item) (u : String) : Bool :=
  (closureOkF (needsGet avail) (itemsOf avail) (avail.length + 1) u).getD false

/-- `finals_in_unlocked(av)`: unlocked display names never consumed as an
ingredient by any unlocked item (ingredient ids are resolved to display
names through the full catalogue `df`, first matching row). -/
def finalsDisplay (df av : List Item) : List String :=
  let items := av.map fun r => r.Name
  let used := av.flatMap fun r =>
    r.needs_norm.filterMap fun p =>
      match df.find? (fun d => d.name_norm == p.1) with
      | some d => if items.contains d.Name then some d.Name else none
      | none => none
  items.filter fun n => !(used.contains n)

/-- `finals_raw = {norm(i) for i in finals_in_unlocked(avail)}`. -/
def finalsRaw (df av : List Item) : List String :=
  (finalsDisplay df av).map normStr

/-- `k in finals`, i.e. `k` is a normalized raw final passing the closure
check. -/
def isFinal (df avail : List Item) (k : String) : Bool :=
  (finalsRaw df avail).contains k && closureOkB avail k

/-- Comparison sense of a pulp constraint. -/
inductive Cmp where
  | le
  | ge
  | eq
deriving DecidableEq, Repr

/-- One linear constraint of the MILP: `lhs (cmp) rhs + rconst`, where
`lhs` and `rhs` are linear combinations of the decision variables
(coefficient, variable-name pairs). -/
structure Constr where
  name : String
  lhs : List (ℚ × String)
  cmp : Cmp
  rhs : List (ℚ × String)
  rconst : ℚ
deriving DecidableEq, Repr

/-- Value of a linear combination under an assignment `v`. -/
def evalT (ts : List (ℚ × String)) (v : String → ℚ) : ℚ :=
  (ts.map fun p => p.1 * v p.2).sum

/-- Whether assignment `v` satisfies the constraint. -/
def Constr.holds (c : Constr) (v : String → ℚ) : Prop :=
  match c.cmp with
  | Cmp.le => evalT c.lhs v ≤ evalT c.rhs v + c.rconst
  | Cmp.ge => evalT c.lhs v ≥ evalT c.rhs v + c.rconst
  | Cmp.eq => evalT c.lhs v = evalT c.rhs v + c.rconst

instance (c : Constr) (v : String → ℚ) : Decidable (c.holds v) := by
  unfold Constr.holds
  exact match c.cmp with
  | Cmp.le => inferInstance
  | Cmp.ge => inferInstance
  | Cmp.eq => inferInstance

/-- The built MILP: objective coefficients and constraint list. -/
structure Model where
  objective : List (ℚ × String)
  constraints : List Constr
deriving DecidableEq, Repr

/-- `consume = lpSum(needs_map[i].get(k, 0.0) * x[i] for i in items_set)`. -/
def consumeTerms (avail : List Item) (k : String) : List (ℚ × String) :=
  (itemsOf avail).map fun i => (needsCoeff avail i k, i)

/-- The consumption of item `k` under assignment `v`: the sum over all
unlocked items `i` of `requirement[i][k] * x[i]`. -/
def consumeSum (avail : List Item) (k : String) (v : String → ℚ) : ℚ :=
  ((itemsOf avail).map fun i => needsCoeff avail i k * v i).sum

/-- The material-balance constraint the ingredient loop produces for `k`.
For a final or stocked `k` the code adds
`yield_map.get(k,1.0) * x[k] >= consume - initial_stock`; in the other
branch the code evaluates the undefined name `ield_map` (a typo for
`yield_map`) and so raises `NameError` instead of adding the intended
equality constraint. -/
def balanceConstr (df avail : List Item) (k : String) : Except String Constr :=
  if isFinal df avail k || decide (0 < initialStock avail k) then
    Except.ok
      { name := vName "balance_ge" k
        lhs := [(yieldGet avail k, k)]
        cmp := Cmp.ge
        rhs := consumeTerms avail k
        rconst := -(initialStock avail k) }
  else
    Except.error "NameError: name ield_map is not defined"

/-- `active_buildings = {r["Building"] for r in avail}`. -/
def activeBuildings (avail : List Item) : List String :=
  (avail.map fun r => r.Building).dedup

/-- The unlocked items whose (first-row) building is `b`. -/
def machineItems (avail : List Item) (b : String) : List String :=
  (itemsOf avail).filter fun i => firstBuilding avail i == b

/-- `machine_time <= 1440` for building `b`. -/
def machineConstr (avail : List Item) (b : String) : Constr :=
  { name := "machine_cap_" ++ b
    lhs := (machineItems avail b).map fun i => (tminGet avail i, i)
    cmp := Cmp.le
    rhs := []
    rconst := 1440 }

/-- Time used on building `b` under assignment `v`. -/
def machineSum (avail : List Item) (b : String) (v : String → ℚ) : ℚ :=
  ((machineItems avail b).map fun i => tminGet avail i * v i).sum

/-- `lpSum(tmin[i] * x[i] for i in items_set)`. -/
def allTimeTerms (avail : List Item) : List (ℚ × String) :=
  (itemsOf avail).map fun i => (tminGet avail i, i)

/-- Total production time under assignment `v`. -/
def totalTimeSum (avail : List Item) (v : String → ℚ) : ℚ :=
  ((itemsOf avail).map fun i => tminGet avail i * v i).sum

/-- Sequence a list of fallible computations, stopping at the first
error, as executing Python loop iterations in order does. -/
def mapExcept (f : α → Except ε β) : List α → Except ε (List β)
  | [] => Except.ok []
  | a :: l =>
    match f a with
    | Except.error e => Except.error e
    | Except.ok b =>
      match mapExcept f l with
      | Except.error e => Except.error e
      | Except.ok bs => Except.ok (b :: bs)

/-- The model-construction half of `optimize_plan_notebook`: objective,
material-balance constraints (which may raise the `ield_map`
`NameError`), per-machine capacity constraints and the global time cap
`total_cap_min = max(0.0, T_hours * 60.0)`. -/
def buildModelOver (df avail : List Item) (T_hours : ℚ) : Except String Model :=
  match mapExcept (balanceConstr df avail) (ingredientItemsOf avail) with
  | Except.error e => Except.error e
  | Except.ok bal =>
    Except.ok
      { objective := (itemsOf avail).map fun i => (xpGet avail i, i)
        constraints :=
          bal ++ (activeBuildings avail).map (machineConstr avail) ++
            [{ name := "global_time_cap"
               lhs := allTimeTerms avail
               cmp := Cmp.le
               rhs := []
               rconst := max 0 (T_hours * 60) }] }

/-- See `buildModelOver`: the unlock filter applied first. -/
def buildModel (df : List Item) (player_level : Int) (T_hours : ℚ) :
    Except String Model :=
  buildModelOver df (availOf df player_level) T_hours

/-- One row of the extracted plan dataframe. -/
structure Row where
  item : String
  is_final : Bool
  qty : ℚ
  xp_each : ℚ
  xp_total : ℚ
  time_min_each : ℚ
  time_min_total : ℚ
deriving DecidableEq, Repr

/-- The result record `optimize_plan_notebook` returns. -/
structure RunResult where
  status : String
  XP_total : ℚ
  XP_per_hour : ℚ
  total_time_used_min : ℚ
  time_capacity_min : ℚ
  plan : List Row
deriving DecidableEq, Repr

/-- `qty = int(round(val)) if integer_solution else float(val)`. -/
def preQty (integer_solution : Bool) (val : ℚ) : ℚ :=
  if integer_solution then ((pyRound val : ℤ) : ℚ) else val

/-- The pre-filter plan rows: one row per unlocked item whose (rounded,
in integer mode) solver value exceeds the `1e-6` tolerance. -/
def preRows (df : List Item) (player_level : Int) (integer_solution : Bool)
    (sol : String → ℚ) : List Row :=
  (itemsOf (availOf df player_level)).filterMap fun i =>
    if tol < preQty integer_solution (sol i) then
      some
        { item := displayName df i
          is_final := isFinal df (availOf df player_level) i
          qty := preQty integer_solution (sol i)
          xp_each := xpGet (availOf df player_level) i
          xp_total := xpGet (availOf df player_level) i * preQty integer_solution (sol i)
          time_min_each := tminGet (availOf df player_level) i
          time_min_total :=
            tminGet (availOf df player_level) i * preQty integer_solution (sol i) }
    else none

/-- The category filter: keep a row iff
`type_map.get(norm(item), "Unknown") == "Machine/Processed"`. -/
def isMachineRow (avail : List Item) (r : Row) : Bool :=
  typeGet avail (normStr r.item) == "Machine/Processed"

/-- The plan ordering: `is_final` descending, then `xp_each` descending,
then `time_min_each` ascending. -/
def rowLE (a b : Row) : Prop :=
  (a.is_final = true ∧ b.is_final = false) ∨
    (a.is_final = b.is_final ∧
      (b.xp_each < a.xp_each ∨
        (a.xp_each = b.xp_each ∧ a.time_min_each ≤ b.time_min_each)))

instance : DecidableRel rowLE := fun a b => by
  unfold rowLE
  infer_instance

instance : IsTotal Row rowLE where
  total a b := by
    unfold rowLE
    cases ha : a.is_final <;> cases hb : b.is_final
    · rcases lt_trichotomy a.xp_each b.xp_each with h | h | h
      · exact Or.inr (Or.inr ⟨rfl, Or.inl h⟩)
      · rcases le_total a.time_min_each b.time_min_each with h2 | h2
        · exact Or.inl (Or.inr ⟨rfl, Or.inr ⟨h, h2⟩⟩)
        · exact Or.inr (Or.inr ⟨rfl, Or.inr ⟨h.symm, h2⟩⟩)
      · exact Or.inl (Or.inr ⟨rfl, Or.inl h⟩)
    · exact Or.inr (Or.inl ⟨rfl, rfl⟩)
    · exact Or.inl (Or.inl ⟨rfl, rfl⟩)
    · rcases lt_trichotomy a.xp_each b.xp_each with h | h | h
      · exact Or.inr (Or.inr ⟨rfl, Or.inl h⟩)
      · rcases le_total a.time_min_each b.time_min_each with h2 | h2
        · exact Or.inl (Or.inr ⟨rfl, Or.inr ⟨h, h2⟩⟩)
        · exact Or.inr (Or.inr ⟨rfl, Or.inr ⟨h.symm, h2⟩⟩)
      · exact Or.inl (Or.inr ⟨rfl, Or.inl h⟩)

instance : IsTrans Row rowLE where
  trans a b c hab hbc := by
    unfold rowLE at hab hbc ⊢
    rcases hab with ⟨ha, hb⟩ | ⟨hab, inab⟩
    · rcases hbc with ⟨hb2, hc⟩ | ⟨hbc, inbc⟩
      · rw [hb] at hb2; exact absurd hb2 (by simp)
      · exact Or.inl ⟨ha, hbc ▸ hb⟩
    · rcases hbc with ⟨hb2, hc⟩ | ⟨hbc, inbc⟩
      · exact Or.inl ⟨hab.trans hb2, hc⟩
      · refine Or.inr ⟨hab.trans hbc, ?_⟩
        rcases inab with h1 | ⟨e1, t1⟩
        · rcases inbc with h2 | ⟨e2, t2⟩
          · exact Or.inl (h2.trans h1)
          · exact Or.inl (e2 ▸ h1)
        · rcases inbc with h2 | ⟨e2, t2⟩
          · exact Or.inl (e1 ▸ h2)
          · exact Or.inr ⟨e1.trans e2, t1.trans t2⟩

/-- `sort_values(["is_final", "xp_each", "time_min_each"],
ascending=[False, False, True])`. -/
def sortPlan (l : List Row) : List Row :=
  List.insertionSort rowLE l

/-- `sum(f r for r in rows)` accumulated over the extraction loop. -/
def sumBy (f : Row → ℚ) (l : List Row) : ℚ :=
  (l.map f).sum

/-- The post-solve half of `optimize_plan_notebook`.  A non-`Optimal`
status returns the tagged zero result.  On `Optimal`, the rows above
tolerance are collected; if none survive, `pd.DataFrame([])` has no
`item` column and the category-filter line raises `KeyError` — the
`none` outcome.  Otherwise the totals are taken over the unfiltered
rows and the plan is the category-filtered, sorted row list. -/
def extractResult (df : List Item) (player_level : Int) (T_hours : ℚ)
    (integer_solution : Bool) (status : String) (sol : String → ℚ) :
    Option RunResult :=
  if status = "Optimal" then
    if (preRows df player_level integer_solution sol).isEmpty then none
    else
      some
        { status := status
          XP_total :=
            sumBy (fun r => r.xp_each * r.qty)
              (preRows df player_level integer_solution sol)
          XP_per_hour :=
            if 0 < T_hours then
              sumBy (fun r => r.xp_each * r.qty)
                  (preRows df player_level integer_solution sol) /
                T_hours
            else 0
          total_time_used_min :=
            sumBy (fun r => r.time_min_each * r.qty)
              (preRows df player_level integer_solution sol)
          time_capacity_min := max 0 (T_hours * 60)
          plan :=
            sortPlan
              ((preRows df player_level integer_solution sol).filter
                (isMachineRow (availOf df player_level))) }
  else
    some
      { status := status
        XP_total := 0
        XP_per_hour := 0
        total_time_used_min := 0
        time_capacity_min := T_hours * 60
        plan := [] }

/-- End-to-end `optimize_plan_notebook`: build the model (which may
raise), hand it to the external solver — abstracted as the returned
`status` and assignment `sol` — and extract the result (which may
raise `KeyError`, the inner `none`). -/
def optimize_plan_notebook (df : List Item) (player_level : Int) (T_hours : ℚ)
    (integer_solution : Bool) (status : String) (sol : String → ℚ) :
    Except String (Option RunResult) :=
  match buildModel df player_level T_hours with
  | Except.error e => Except.error e
  | Except.ok _ =>
    Except.ok (extractResult df player_level T_hours integer_solution status sol)

/-- A two-item witness catalogue: a stocked field crop and a machine good
consuming it. -/
def wheatItem : Item :=
  { name_norm := "wheat", Name := "Wheat", Level_num := 1, XP := 1
    time_min := 2, needs_norm := [], Yield_qty := 2, Building := "Field"
    Production_Type := "Raw/Harvested", Source := "Field" }

/-- See `wheatItem`. -/
def breadItem : Item :=
  { name_norm := "bread", Name := "Bread", Level_num := 2, XP := 5
    time_min := 10, needs_norm := [("wheat", 2)], Yield_qty := 1
    Building := "Bakery", Production_Type := "Machine/Processed"
    Source := "Bakery" }

/-- Witness catalogue for model-construction and extraction claims. -/
def wdf : List Item := [wheatItem, breadItem]

/-- Catalogue with a pure intermediate: `flour` is consumed by `dough`,
is not a final, and has no Field/Tree/Bush source, so the ingredient
loop reaches the `balance_eq` branch on it. -/
def flourItem : Item :=
  { name_norm := "flour", Name := "Flour", Level_num := 1, XP := 1
    time_min := 5, needs_norm := [], Yield_qty := 1, Building := "Mill"
    Production_Type := "Machine/Processed", Source := "Shop" }

/-- See `flourItem`. -/
def doughItem : Item :=
  { name_norm := "dough", Name := "Dough", Level_num := 1, XP := 3
    time_min := 10, needs_norm := [("flour", 1)], Yield_qty := 1
    Building := "Bakery", Production_Type := "Machine/Processed"
    Source := "Bakery" }

/-- See `flourItem`. -/
def c1df : List Item := [flourItem, doughItem]

/-- Cyclic catalogue: `cyc_c` needs `a`, and `a`/`b` need each other, so
`cyc_c` is an unconsumed final whose closure check enters the cycle. -/
def cycItemC : Item :=
  { name_norm := "c", Name := "C", Level_num := 1, XP := 1, time_min := 1
    needs_norm := [("a", 1)], Yield_qty := 1, Building := "M"
    Production_Type := "Machine/Processed", Source := "Shop" }

/-- See `cycItemC`. -/
def cycItemA : Item :=
  { name_norm := "a", Name := "A", Level_num := 1, XP := 1, time_min := 1
    needs_norm := [("b", 1)], Yield_qty := 1, Building := "M"
    Production_Type := "Machine/Processed", Source := "Shop" }

/-- See `cycItemC`. -/
def cycItemB : Item :=
  { name_norm := "b", Name := "B", Level_num := 1, XP := 1, time_min := 1
    needs_norm := [("a", 1)], Yield_qty := 1, Building := "M"
    Production_Type := "Machine/Processed", Source := "Shop" }

/-- See `cycItemC`. -/
def cycdf : List Item := [cycItemC, cycItemA, cycItemB]

/-- Scenario B raw item: no ingredients, unlock level 1, zero XP, zero
time, field source. -/
def rawItem : Item :=
  { name_norm := "raw", Name := "Raw", Level_num := 1, XP := 0, time_min := 0
    needs_norm := [], Yield_qty := 1, Building := "Field"
    Production_Type := "Raw/Harvested", Source := "Field" }

/-- Scenario B machine item: consumes 2 raw units, 5 XP, 10 minutes,
unlock level 5. -/
def procItem : Item :=
  { name_norm := "proc", Name := "Proc", Level_num := 5, XP := 5
    time_min := 10, needs_norm := [("raw", 2)], Yield_qty := 1
    Building := "Machine", Production_Type := "Machine/Processed"
    Source := "Machine" }

/-- The Scenario A/B catalogue of the spec. -/
def scenBdf : List Item := [rawItem, procItem]

/-- A concrete solver assignment used by extraction witnesses. -/
def solW : String → ℚ := fun s => if s = "bread" then 1 else if s = "wheat" then 2 else 0

/-- A solver assignment whose `wheat` value `0.4` rounds to zero. -/
def solR : String → ℚ := fun s => if s = "bread" then 2 else if s = "wheat" then 2 / 5 else 0

/-- An `Except` value known to be `ok` is `ok` of something. -/
theorem exists_ok_of_isOk {ε α : Type} {x : Except ε α} (h : x.isOk = true) :
    ∃ m, x = Except.ok m := by
  cases x with
  | error e => simp [Except.isOk, Except.toBool] at h
  | ok m => exact ⟨m, rfl⟩

/-- Successful `mapExcept` keeps the image of every list member. -/
theorem mapExcept_mem {α ε β : Type} {f : α → Except ε β} :
    ∀ {l : List α} {ys : List β}, mapExcept f l = Except.ok ys →
      ∀ {a : α}, a ∈ l → ∀ {b : β}, f a = Except.ok b → b ∈ ys := by
  intro l
  induction l with
  | nil => intro ys h a ha; cases ha
  | cons x t ih =>
    intro ys h a ha b hb
    unfold mapExcept at h
    cases hfx : f x with
    | error e => rw [hfx] at h; cases h
    | ok y =>
      rw [hfx] at h
      cases hmt : mapExcept f t with
      | error e => rw [hmt] at h; cases h
      | ok ys2 =>
        rw [hmt] at h
        cases h
        rcases List.mem_cons.mp ha with rfl | hat
        · rw [hfx] at hb
          cases hb
          exact List.mem_cons_self _ _
        · exact List.mem_cons_of_mem _ (ih hmt hat hb)

/-- Helper: on a successful build, the constraint list is the balance
block followed by the machine caps and the global cap. -/
theorem buildModel_ok_parts {df : List Item} {lvl : Int} {T : ℚ} {m : Model}
    (hm : buildModel df lvl T = Except.ok m) :
    ∃ bal, mapExcept (balanceConstr df (availOf df lvl))
        (ingredientItemsOf (availOf df lvl)) = Except.ok bal ∧
      m.constraints =
        bal ++ (activeBuildings (availOf df lvl)).map (machineConstr (availOf df lvl)) ++
          [{ name := "global_time_cap"
             lhs := allTimeTerms (availOf df lvl)
             cmp := Cmp.le
             rhs := []
             rconst := max 0 (T * 60) }] := by
  unfold buildModel buildModelOver at hm
  cases hb : mapExcept (balanceConstr df (availOf df lvl))
      (ingredientItemsOf (availOf df lvl)) with
  | error e => rw [hb] at hm; cases hm
  | ok bal =>
    rw [hb] at hm
    cases hm
    exact ⟨bal, rfl, rfl⟩

/-- C1: the `balance_eq` branch for a pure intermediate with no stock
evaluates the undefined name `ield_map`, so model construction raises
`NameError` instead of adding the exact-balance constraint.  Concretely,
`flour` is an unlocked ingredient of `dough`, is not a final and has no
initial stock, and building the model fails. -/
theorem c1_build_raises_on_pure_intermediate :
    buildModel c1df 10 24 = Except.error "NameError: name ield_map is not defined" := by
  rfl

/-- C2: on the cyclic catalogue (`c` needs `a`, `a` needs `b`, `b` needs
`a`) the closure check started at the final `c` never returns, whatever
stack budget it is given: there is no in-progress visitation set and no
fail-fast cycle error, the recursion just never terminates. -/
theorem c2_closure_diverges_on_cycle :
    ∀ fuel : Nat,
      closureOkF (needsGet (availOf cycdf 10)) (itemsOf (availOf cycdf 10)) fuel "c" =
        none := by
  have aux : ∀ fuel : Nat,
      closureOkF (needsGet (availOf cycdf 10)) (itemsOf (availOf cycdf 10)) fuel "a" =
          none ∧
        closureOkF (needsGet (availOf cycdf 10)) (itemsOf (availOf cycdf 10)) fuel "b" =
          none := by
    intro fuel
    induction fuel with
    | zero => exact ⟨rfl, rfl⟩
    | succ n ih => exact ⟨ih.2, ih.1⟩
  intro fuel
  cases fuel with
  | zero => rfl
  | succ n => exact (aux n).1

/-- C3: a non-`Optimal` solver status yields the tagged zero result:
zero XP, zero XP per hour, zero time used, empty plan, the status field
carrying the solver status — and no exception. -/
theorem c3_nonoptimal_zero_result (df : List Item) (lvl : Int) (T : ℚ)
    (int_mode : Bool) (status : String) (sol : String → ℚ)
    (h : status ≠ "Optimal") :
    extractResult df lvl T int_mode status sol =
      some
        { status := status, XP_total := 0, XP_per_hour := 0
          total_time_used_min := 0, time_capacity_min := T * 60, plan := [] } := by
  unfold extractResult
  rw [if_neg h]

/-- Witness for C3 at the `Infeasible` status on the witness catalogue. -/
theorem c3_nonoptimal_zero_result_witness :
    "Infeasible" ≠ "Optimal" ∧
      extractResult wdf 10 24 true "Infeasible" solW =
        some
          { status := "Infeasible", XP_total := 0, XP_per_hour := 0
            total_time_used_min := 0, time_capacity_min := 24 * 60, plan := [] } :=
  ⟨by decide, c3_nonoptimal_zero_result wdf 10 24 true "Infeasible" solW (by decide)⟩

/-- C4: Scenario B (machine item locked, only the zero-XP raw crop
unlocked, solver returns `Optimal` with the all-zero assignment): the
model builds and solves, but extraction hits the empty pre-filter frame,
whose missing `item` column makes the category-filter line raise
`KeyError` (the inner `none`) instead of returning the promised
zero-XP empty-plan result. -/
theorem c4_scenario_b_raises :
    optimize_plan_notebook scenBdf 1 24 true "Optimal" (fun _ => 0) =
      Except.ok none := by
  rfl

/-- Helper: the two sides of a `balance_ge` constraint evaluate to the
yield term and the consumption sum. -/
theorem evalT_consumeTerms (avail : List Item) (k : String) (v : String → ℚ) :
    evalT (consumeTerms avail k) v = consumeSum avail k v := by
  unfold evalT consumeTerms consumeSum
  rw [List.map_map]
  rfl

/-- C5: on a successful build, every unlocked ingredient `k` that is a
final output or has nonzero initial stock contributes the surplus
constraint `yield[k] * x[k] + initial_stock[k] >= Σ requirement[i][k] * x[i]`
to the model. -/
theorem c5_balance_ge_in_model (df : List Item) (lvl : Int) (T : ℚ) (k : String)
    (m : Model) (hm : buildModel df lvl T = Except.ok m)
    (hk : k ∈ ingredientItemsOf (availOf df lvl))
    (hfs : isFinal df (availOf df lvl) k = true ∨ 0 < initialStock (availOf df lvl) k) :
    ∃ c ∈ m.constraints, c.name = vName "balance_ge" k ∧
      ∀ v : String → ℚ, c.holds v ↔
        yieldGet (availOf df lvl) k * v k + initialStock (availOf df lvl) k ≥
          consumeSum (availOf df lvl) k v := by
  obtain ⟨bal, hb, hcons⟩ := buildModel_ok_parts hm
  have hcond : (isFinal df (availOf df lvl) k ||
      decide (0 < initialStock (availOf df lvl) k)) = true := by
    rcases hfs with h | h
    · simp [h]
    · simp [h]
  have hbc : balanceConstr df (availOf df lvl) k = Except.ok
      { name := vName "balance_ge" k
        lhs := [(yieldGet (availOf df lvl) k, k)]
        cmp := Cmp.ge
        rhs := consumeTerms (availOf df lvl) k
        rconst := -(initialStock (availOf df lvl) k) } := by
    unfold balanceConstr
    rw [if_pos hcond]
  refine ⟨{ name := vName "balance_ge" k
            lhs := [(yieldGet (availOf df lvl) k, k)]
            cmp := Cmp.ge
            rhs := consumeTerms (availOf df lvl) k
            rconst := -(initialStock (availOf df lvl) k) }, ?_, rfl, ?_⟩
  · rw [hcons]
    exact List.mem_append_left _ (List.mem_append_left _ (mapExcept_mem hb hk hbc))
  · intro v
    show evalT [(yieldGet (availOf df lvl) k, k)] v ≥
        evalT (consumeTerms (availOf df lvl) k) v + -(initialStock (availOf df lvl) k) ↔ _
    rw [evalT_consumeTerms]
    simp only [evalT, List.map_cons, List.map_nil, List.sum_cons, List.sum_nil, add_zero]
    constructor
    · intro h; linarith
    · intro h; linarith

/-- Witness for C5: `wheat` is a stocked ingredient of `bread` in the
witness catalogue, and the built model carries its surplus constraint. -/
theorem c5_balance_ge_in_model_witness :
    ∃ m, buildModel wdf 10 24 = Except.ok m ∧
      ∃ c ∈ m.constraints, c.name = vName "balance_ge" "wheat" ∧
        ∀ v : String → ℚ, c.holds v ↔
          yieldGet (availOf wdf 10) "wheat" * v "wheat" +
              initialStock (availOf wdf 10) "wheat" ≥
            consumeSum (availOf wdf 10) "wheat" v := by
  obtain ⟨m, hm⟩ := exists_ok_of_isOk (x := buildModel wdf 10 24) (by decide)
  exact ⟨m, hm, c5_balance_ge_in_model wdf 10 24 "wheat" m hm (by decide)
    (Or.inr (by decide))⟩

/-- C6: on a successful build with a nonnegative session length, the
model carries one `machine_cap` constraint per distinct building among
unlocked items, capping that building's production time at the fixed
1440 minutes, and the single `global_time_cap` constraint capping total
production time at `T_hours * 60`. -/
theorem c6_time_caps_in_model (df : List Item) (lvl : Int) (T_hours : ℚ)
    (m : Model) (hm : buildModel df lvl T_hours = Except.ok m)
    (hT : 0 ≤ T_hours) :
    (∀ b ∈ activeBuildings (availOf df lvl), ∃ c ∈ m.constraints,
        c.name = "machine_cap_" ++ b ∧
          ∀ v : String → ℚ, c.holds v ↔ machineSum (availOf df lvl) b v ≤ 1440) ∧
      ∃ c ∈ m.constraints, c.name = "global_time_cap" ∧
        ∀ v : String → ℚ, c.holds v ↔
          totalTimeSum (availOf df lvl) v ≤ T_hours * 60 := by
  obtain ⟨bal, hb, hcons⟩ := buildModel_ok_parts hm
  constructor
  · intro b hbld
    refine ⟨machineConstr (availOf df lvl) b, ?_, rfl, ?_⟩
    · rw [hcons]
      exact List.mem_append_left _
        (List.mem_append_right _ (List.mem_map_of_mem _ hbld))
    · intro v
      show evalT ((machineItems (availOf df lvl) b).map
          fun i => (tminGet (availOf df lvl) i, i)) v ≤ evalT [] v + 1440 ↔ _
      unfold evalT machineSum
      rw [List.map_map]
      simp only [List.map_nil, List.sum_nil, zero_add]
      rfl
  · refine ⟨{ name := "global_time_cap"
              lhs := allTimeTerms (availOf df lvl)
              cmp := Cmp.le
              rhs := []
              rconst := max 0 (T_hours * 60) }, ?_, rfl, ?_⟩
    · rw [hcons]
      exact List.mem_append_right _ (List.mem_singleton.mpr rfl)
    · intro v
      show evalT (allTimeTerms (availOf df lvl)) v ≤
          evalT [] v + max 0 (T_hours * 60) ↔ _
      have hmax : max 0 (T_hours * 60) = T_hours * 60 :=
        max_eq_right (by linarith)
      unfold evalT allTimeTerms totalTimeSum
      rw [List.map_map, hmax]
      simp only [List.map_nil, List.sum_nil, zero_add]
      rfl

/-- Witness for C6 on the witness catalogue (buildings `Field` and
`Bakery`). -/
theorem c6_time_caps_in_model_witness :
    ∃ m, buildModel wdf 10 24 = Except.ok m ∧
      ((∀ b ∈ activeBuildings (availOf wdf 10), ∃ c ∈ m.constraints,
          c.name = "machine_cap_" ++ b ∧
            ∀ v : String → ℚ, c.holds v ↔ machineSum (availOf wdf 10) b v ≤ 1440) ∧
        ∃ c ∈ m.constraints, c.name = "global_time_cap" ∧
          ∀ v : String → ℚ, c.holds v ↔
            totalTimeSum (availOf wdf 10) v ≤ 24 * 60) := by
  obtain ⟨m, hm⟩ := exists_ok_of_isOk (x := buildModel wdf 10 24) (by decide)
  exact ⟨m, hm, c6_time_caps_in_model wdf 10 24 m hm (by norm_num)⟩

/-- Helper: field values of a successful `Optimal` extraction. -/
theorem extract_optimal_parts {df : List Item} {lvl : Int} {T : ℚ}
    {int_mode : Bool} {sol : String → ℚ} {res : RunResult}
    (h : extractResult df lvl T int_mode "Optimal" sol = some res) :
    res.XP_total = sumBy (fun r => r.xp_each * r.qty) (preRows df lvl int_mode sol) ∧
      res.total_time_used_min =
        sumBy (fun r => r.time_min_each * r.qty) (preRows df lvl int_mode sol) ∧
      res.plan =
        sortPlan ((preRows df lvl int_mode sol).filter (isMachineRow (availOf df lvl))) := by
  unfold extractResult at h
  rw [if_pos rfl] at h
  by_cases he : (preRows df lvl int_mode sol).isEmpty = true
  · rw [if_pos he] at h
    cases h
  · rw [if_neg he] at h
    cases h
    exact ⟨rfl, rfl, rfl⟩

/-- C7: on an `Optimal` solve, the returned `XP_total` and
`total_time_used_min` are the sums over the unfiltered above-tolerance
rows, while the returned plan is the sorted restriction to rows whose
production type is `Machine/Processed` — the filter changes neither
total. -/
theorem c7_totals_prefilter_plan_filtered (df : List Item) (lvl : Int) (T : ℚ)
    (int_mode : Bool) (sol : String → ℚ) (res : RunResult)
    (h : extractResult df lvl T int_mode "Optimal" sol = some res) :
    res.XP_total = ((preRows df lvl int_mode sol).map fun r => r.xp_each * r.qty).sum ∧
      res.total_time_used_min =
        ((preRows df lvl int_mode sol).map fun r => r.time_min_each * r.qty).sum ∧
      res.plan =
        sortPlan ((preRows df lvl int_mode sol).filter (isMachineRow (availOf df lvl))) ∧
      ∀ r ∈ res.plan, typeGet (availOf df lvl) (normStr r.item) = "Machine/Processed" := by
  obtain ⟨h1, h2, h3⟩ := extract_optimal_parts h
  refine ⟨h1, h2, h3, ?_⟩
  intro r hr
  rw [h3] at hr
  unfold sortPlan at hr
  have hr2 := (List.mem_insertionSort rowLE).mp hr
  have hr3 := (List.mem_filter.mp hr2).2
  simpa [isMachineRow] using hr3

/-- Witness for C7: extraction on the witness catalogue with the
concrete assignment `solW`. -/
theorem c7_totals_prefilter_plan_filtered_witness :
    ∃ res, extractResult wdf 10 24 true "Optimal" solW = some res ∧
      (res.XP_total = ((preRows wdf 10 true solW).map fun r => r.xp_each * r.qty).sum ∧
        res.total_time_used_min =
          ((preRows wdf 10 true solW).map fun r => r.time_min_each * r.qty).sum ∧
        res.plan =
          sortPlan ((preRows wdf 10 true solW).filter (isMachineRow (availOf wdf 10))) ∧
        ∀ r ∈ res.plan, typeGet (availOf wdf 10) (normStr r.item) = "Machine/Processed") := by
  obtain ⟨res, hres⟩ :=
    Option.isSome_iff_exists.mp
      (show (extractResult wdf 10 24 true "Optimal" solW).isSome = true by decide)
  exact ⟨res, hres, c7_totals_prefilter_plan_filtered wdf 10 24 true solW res hres⟩

/-- C8: the plan of an `Optimal` solve is sorted by `is_final`
descending, then `xp_each` descending, then `time_min_each` ascending
(the `rowLE` order). -/
theorem c8_plan_sorted (df : List Item) (lvl : Int) (T : ℚ) (int_mode : Bool)
    (sol : String → ℚ) (res : RunResult)
    (h : extractResult df lvl T int_mode "Optimal" sol = some res) :
    List.Sorted rowLE res.plan := by
  obtain ⟨-, -, h3⟩ := extract_optimal_parts h
  rw [h3]
  unfold sortPlan
  exact List.sorted_insertionSort rowLE _

/-- Witness for C8 on the witness catalogue and assignment. -/
theorem c8_plan_sorted_witness :
    ∃ res, extractResult wdf 10 24 true "Optimal" solW = some res ∧
      List.Sorted rowLE res.plan := by
  obtain ⟨res, hres⟩ :=
    Option.isSome_iff_exists.mp
      (show (extractResult wdf 10 24 true "Optimal" solW).isSome = true by decide)
  exact ⟨res, hres, c8_plan_sorted wdf 10 24 true solW res hres⟩

/-- C10: in integer mode every returned plan entry carries an integer
quantity of at least 1 — the solver value is rounded before the `1e-6`
tolerance test, so a value rounding to 0 is dropped entirely. -/
theorem c10_integer_plan_qty_ge_one (df : List Item) (lvl : Int) (T : ℚ)
    (status : String) (sol : String → ℚ) (res : RunResult)
    (h : extractResult df lvl T true status sol = some res) :
    ∀ r ∈ res.plan, ∃ n : ℤ, r.qty = (n : ℚ) ∧ 1 ≤ n := by
  by_cases hs : status = "Optimal"
  · subst hs
    obtain ⟨-, -, h3⟩ := extract_optimal_parts h
    intro r hr
    rw [h3] at hr
    unfold sortPlan at hr
    have hr2 := (List.mem_insertionSort rowLE).mp hr
    have hr3 := (List.mem_filter.mp hr2).1
    unfold preRows at hr3
    obtain ⟨i, hi, hf⟩ := List.mem_filterMap.mp hr3
    by_cases hq : tol < preQty true (sol i)
    · rw [if_pos hq] at hf
      cases hf
      refine ⟨pyRound (sol i), ?_, ?_⟩
      · show preQty true (sol i) = _
        unfold preQty
        rw [if_pos rfl]
      · have hq2 : tol < ((pyRound (sol i) : ℤ) : ℚ) := by
          have : preQty true (sol i) = ((pyRound (sol i) : ℤ) : ℚ) := by
            unfold preQty
            rw [if_pos rfl]
          rw [this] at hq
          exact hq
        have h0 : (0 : ℚ) < ((pyRound (sol i) : ℤ) : ℚ) := by
          have ht : (0 : ℚ) < tol := by norm_num [tol]
          linarith
        have h1 : (0 : ℤ) < pyRound (sol i) := by exact_mod_cast h0
        omega
    · rw [if_neg hq] at hf
      cases hf
  · unfold extractResult at h
    rw [if_neg hs] at h
    cases h
    intro r hr
    cases hr

/-- Witness for C10: `solR` gives `wheat` the value `0.4`, which rounds
to zero and is omitted; the surviving entries have integer quantity of
at least 1. -/
theorem c10_integer_plan_qty_ge_one_witness :
    ∃ res, extractResult wdf 10 24 true "Optimal" solR = some res ∧
      ∀ r ∈ res.plan, ∃ n : ℤ, r.qty = (n : ℚ) ∧ 1 ≤ n := by
  obtain ⟨res, hres⟩ :=
    Option.isSome_iff_exists.mp
      (show (extractResult wdf 10 24 true "Optimal" solR).isSome = true by decide)
  exact ⟨res, hres, c10_integer_plan_qty_ge_one wdf 10 24 "Optimal" solR res hres⟩

/-- C9: under distinct unlocked item ids, an item whose `Source` matches
`Field|Tree|Bush` case-insensitively as a substring gets initial stock
exactly 30, and any other item gets 0; and positive stock always routes
the ingredient loop to the surplus (`>=`) branch. -/
theorem c9_stock_thirty_iff_source (df : List Item) (lvl : Int) (k : String)
    (r : Item)
    (hnd : ((availOf df lvl).map fun t => t.name_norm).Nodup)
    (hr : r ∈ availOf df lvl) (hk : r.name_norm = k) :
    initialStock (availOf df lvl) k = (if sourceMatches r.Source then 30 else 0) ∧
      (0 < initialStock (availOf df lvl) k →
        ∃ c, balanceConstr df (availOf df lvl) k = Except.ok c ∧ c.cmp = Cmp.ge) := by
  constructor
  · unfold initialStock
    by_cases hsm : sourceMatches r.Source
    · rw [if_pos hsm, if_pos]
      refine List.any_eq_true.mpr ⟨r, hr, ?_⟩
      simp [hk, hsm]
    · rw [if_neg hsm, if_neg]
      intro hany
      obtain ⟨t, ht, htp⟩ := List.any_eq_true.mp hany
      have h1 : t.name_norm = k := by
        have := (Bool.and_eq_true _ _).mp htp |>.1
        simpa using this
      have h2 : sourceMatches t.Source = true :=
        ((Bool.and_eq_true _ _).mp htp).2
      have hteq : t = r :=
        List.inj_on_of_nodup_map hnd ht hr (by rw [h1, hk])
      rw [hteq] at h2
      exact hsm h2
  · intro hpos
    unfold balanceConstr
    rw [if_pos]
    · exact ⟨_, rfl, rfl⟩
    · have : decide (0 < initialStock (availOf df lvl) k) = true := by
        exact decide_eq_true hpos
      simp [this]

/-- Witness for C9 at the stocked `wheat` row of the witness catalogue. -/
theorem c9_stock_thirty_iff_source_witness :
    initialStock (availOf wdf 10) "wheat" =
        (if sourceMatches wheatItem.Source then 30 else 0) ∧
      (0 < initialStock (availOf wdf 10) "wheat" →
        ∃ c, balanceConstr wdf (availOf wdf 10) "wheat" = Except.ok c ∧
          c.cmp = Cmp.ge) :=
  c9_stock_thirty_iff_source wdf 10 "wheat" wheatItem (by decide) (by decide) rfl
